import Mathlib

/-!
Verification development for MTSFV (QuickerSFV Rust migration).

The repository consists of:
* `rust_core/quicksfv_core.h` — the C ABI contract of the Rust CRC32 core
  (`quicksfv_crc32`, `quicksfv_crc32_file`); the Rust body (`lib.rs`) is not
  part of the available sources, so its behaviour is modelled from the header
  contract and the documented test vectors (empty → `00000000`,
  `"123456789"` → `CBF43926`, `"Hello, World!"` → `EC4AC3D0`).
* `com_shim/quicksfv_explorer_command.cpp` — a COM shim implementing
  `IExplorerCommand`: its `Invoke` loop fetches each selected shell item,
  resolves its filesystem path, calls `quicksfv_crc32_file`, and appends one
  formatted line per successfully resolved item (`%08X` uppercase hex on
  success, a fixed error text when the returned checksum is 0).  It also
  implements a class factory, module reference counting and
  `DllGetClassObject` / `DllCanUnloadNow`.

Components of the spec that have no code in the sources (manifest parsing,
provider registry, verification engine, scheduler) are modelled from the
spec's words; each such definition is marked `Modelled from the spec:`.
-/

namespace MTSFV

/-! ### CRC32 core

Modelled from the spec: the Rust implementation (`rust_core/src/lib.rs`,
using the `crc32fast` crate) is absent from the sources.  The header
`quicksfv_core.h` fixes the contract (standard CRC32, returns 0 for a
NULL/empty buffer) and the documentation fixes the algorithm via the
standard reflected CRC32 test vectors.  Bytes are `Nat`s below 256; the
32-bit state is a `Nat` kept below `2 ^ 32` by construction. -/

def crc32Poly : Nat := 0xEDB88320

/-- One bit-step of the reflected CRC32: shift right, conditionally xor the
reversed polynomial. -/
def crc32StepBit (r : Nat) : Nat :=
  if r % 2 = 1 then (r / 2) ^^^ crc32Poly else r / 2

/-- Consume one input byte: xor it into the low byte of the state, then run
eight bit-steps. -/
def crc32StepByte (r : Nat) (b : Nat) : Nat :=
  crc32StepBit^[8] (r ^^^ (b % 256))

/-- Stream a chunk of bytes through the CRC32 state. -/
def crc32Update (r : Nat) (bytes : List Nat) : Nat :=
  bytes.foldl crc32StepByte r

/-- The function `quicksfv_crc32(ptr, len)` on the byte buffer `bytes`:
initial state all ones, final xor with all ones. -/
def crc32 (bytes : List Nat) : Nat :=
  crc32Update 0xFFFFFFFF bytes ^^^ 0xFFFFFFFF

/-- Modelled from the spec: the streaming digest-provider interface of §4.1
instantiated for CRC32 (the `crc32fast::Hasher` used by the absent Rust
core): `new` resets the state, `update` consumes a chunk, `finalize`
produces the digest. -/
structure Crc32Hasher where
  state : Nat
deriving DecidableEq

def Crc32Hasher.new : Crc32Hasher := ⟨0xFFFFFFFF⟩

def Crc32Hasher.update (h : Crc32Hasher) (bytes : List Nat) : Crc32Hasher :=
  ⟨crc32Update h.state bytes⟩

def Crc32Hasher.finalize (h : Crc32Hasher) : Nat :=
  h.state ^^^ 0xFFFFFFFF

/-- The byte content of the string `"123456789"`, the canonical CRC32 test
vector used by `example_cpp_usage.cpp`. -/
def bytes123456789 : List Nat := [49, 50, 51, 52, 53, 54, 55, 56, 57]

/-! ### File access

Modelled from the spec: `quicksfv_crc32_file` opens the file at the given
path and streams it; per the header contract it returns 0 on any error
(file not found, read error).  A filesystem is a map from paths to a file
state; `absent` is "no such path", `unreadable` any other I/O failure. -/

inductive FileState where
  | absent
  | unreadable
  | content (bytes : List Nat)

/-- The function `quicksfv_crc32_file(path)`: CRC32 of the file content, or
0 on any error, exactly as documented in `quicksfv_core.h`. -/
def crc32File (fs : String → FileState) (p : String) : Nat :=
  match fs p with
  | .absent => 0
  | .unreadable => 0
  | .content bytes => crc32 bytes

/-! ### Result formatting (from `QuickerSFVExplorerCommand::Invoke`)

The shim formats each checksum with
`std::hex`, `std::uppercase`, `std::setw(8)` and a zero fill character,
i.e. exactly eight uppercase hexadecimal digits for a `uint32_t`, and
prints a fixed error text when the returned checksum is 0. -/

/-- One uppercase hexadecimal digit character for a value below 16
(`0`–`9`, `A`–`F`). -/
def hexDigitU (n : Nat) : Char :=
  if n < 10 then Char.ofNat (48 + n) else Char.ofNat (55 + n)

/-- The `n` least-significant base-16 digits of `v`, most significant
first. -/
def hexDigitsBE : Nat → Nat → List Nat
  | 0, _ => []
  | n + 1, v => hexDigitsBE n (v / 16) ++ [v % 16]

/-- The eight-character uppercase hexadecimal rendering of a 32-bit value,
as produced by the stream manipulators in `Invoke`. -/
def formatHex8 (v : Nat) : List Char :=
  (hexDigitsBE 8 v).map hexDigitU

/-- The text placed after `<name>: ` for one file in `Invoke`: the
eight-digit uppercase hex checksum when it is nonzero, the fixed error
text otherwise. -/
def resultText (crc : Nat) : String :=
  if crc ≠ 0 then String.mk (formatHex8 crc)
  else "ERROR (file not found or read error)"

/-- A shell item as seen by the `Invoke` loop: `GetDisplayName` either
yields a filesystem path or fails. -/
structure ShellItem where
  path : Option String

/-- The `Invoke` loop over the selected items.  A slot is `none` when
`GetItemAt` fails for that index (the loop `continue`s without a line);
an item whose `GetDisplayName` fails likewise contributes no line; every
other item contributes exactly one line `<path>: <resultText>`. -/
def invokeLines (fs : String → FileState) (items : List (Option ShellItem)) :
    List String :=
  items.filterMap fun slot =>
    slot.bind fun item =>
      item.path.map fun p => p ++ ": " ++ resultText (crc32File fs p)

/-- The selected items whose shell-item retrieval and path resolution both
succeed, in selection order. -/
def resolvedPaths (items : List (Option ShellItem)) : List String :=
  items.filterMap fun slot => slot.bind fun item => item.path

/-! ### Digest text parsing

Modelled from the spec: no parser exists in the sources; §3 and §4.1
require `parse(text) -> DigestValue`, case-insensitive on input
("lowercase hex canonical, uppercase accepted on parse"). -/

/-- Value of one hexadecimal digit character; accepts `0`–`9`, `A`–`F`
and `a`–`f` (case-insensitive per the spec). -/
def hexVal (c : Char) : Option Nat :=
  if 48 ≤ c.toNat ∧ c.toNat ≤ 57 then some (c.toNat - 48)
  else if 65 ≤ c.toNat ∧ c.toNat ≤ 70 then some (c.toNat - 55)
  else if 97 ≤ c.toNat ∧ c.toNat ≤ 102 then some (c.toNat - 87)
  else none

/-- Modelled from the spec: `parse(text) -> DigestValue`, reading a
hexadecimal digest case-insensitively; fails on any non-hex character. -/
def parseHex (cs : List Char) : Option Nat :=
  cs.foldl (fun acc c => acc.bind fun a => (hexVal c).map fun d => 16 * a + d)
    (some 0)

/-! ### Provider registry and verification engine

Modelled from the spec: none of §4.2–§4.4 has code in the sources.  The
registry maps algorithm ids to factories; `create` returns the explicit
`unsupportedAlgorithm` failure for an unknown id (§4.2).  The engine
resolves the algorithm, opens the file (`missing` for "no such path",
`readError` for other I/O failures), streams and compares (§4.4). -/

inductive CreateResult where
  | provider (id : String)
  | unsupportedAlgorithm
deriving DecidableEq

/-- Modelled from the spec: `create(AlgorithmId)` of the Provider
Registry; the registry is the list of registered algorithm ids. -/
def registryCreate (reg : List String) (id : String) : CreateResult :=
  if id ∈ reg then .provider id else .unsupportedAlgorithm

/-- Outcome of one manifest entry (§3 VerificationResult). -/
inductive VOutcome where
  | matched
  | mismatched (expected : Nat) (computed : Nat)
  | missing
  | readError
  | unsupportedAlgorithm
deriving DecidableEq

/-- One manifest entry (§3): relative path, expected digest, algorithm. -/
structure ManifestEntry where
  path : String
  expected : Nat
  algorithm : String

/-- Modelled from the spec: the per-entry state machine of §4.4 — resolve
the algorithm through the registry, open the file, stream it through a
fresh CRC32 provider, compare digests. -/
def verifyOne (reg : List String) (fs : String → FileState)
    (e : ManifestEntry) : VOutcome :=
  match registryCreate reg e.algorithm with
  | .unsupportedAlgorithm => .unsupportedAlgorithm
  | .provider _ =>
    match fs e.path with
    | .absent => .missing
    | .unreadable => .readError
    | .content bytes =>
      if crc32 bytes = e.expected then .matched
      else .mismatched e.expected (crc32 bytes)

/-- Modelled from the spec: the single-worker run — each entry processed
in manifest order (§4.4 step 5 with trivial re-sorting). -/
def runSequential (reg : List String) (fs : String → FileState)
    (entries : List ManifestEntry) : List VOutcome :=
  entries.map (verifyOne reg fs)

/-- Modelled from the spec (§5): a worker pool's completion order is an
arbitrary sequence of entry indices; each completed index contributes the
pair (manifest index, outcome). -/
def runSchedule (reg : List String) (fs : String → FileState)
    (entries : List ManifestEntry) (order : List Nat) :
    List (Nat × VOutcome) :=
  order.filterMap fun i =>
    (entries[i]?).map fun e => (i, verifyOne reg fs e)

/-- Modelled from the spec (§4.4 step 5, §5): the completion-order results
are re-sorted to manifest order before the report is returned. -/
def resortReport (n : Nat) (rs : List (Nat × VOutcome)) : List VOutcome :=
  (List.range n).filterMap fun i => rs.lookup i

/-! ### COM class object lookup (from `DllGetClassObject`)

GUIDs are modelled as the 128-bit numbers printed in the source. -/

def CLSID_QuickerSFVExplorerCommand : Nat :=
  0xA5B8C3D21F2E4D5A9B3C7E8F9A1B2C3D

def IID_IUnknown : Nat := 0x0000000000000000C000000000000046

def IID_IClassFactory : Nat := 0x0000000100000000C000000000000046

inductive Hresult where
  | sOk
  | sFalse
  | classNotAvailable
  | noInterface
deriving DecidableEq

/-- The export `DllGetClassObject`: any class id other than
`CLSID_QuickerSFVExplorerCommand` yields `CLASS_E_CLASSNOTAVAILABLE`; for
the known class a factory is created and queried for `riid`
(`IID_IUnknown` or `IID_IClassFactory` succeed, anything else is
`E_NOINTERFACE`). -/
def dllGetClassObject (rclsid : Nat) (riid : Nat) : Hresult :=
  if rclsid ≠ CLSID_QuickerSFVExplorerCommand then .classNotAvailable
  else if riid = IID_IUnknown ∨ riid = IID_IClassFactory then .sOk
  else .noInterface

/-! ### Module reference counting (from the COM shim)

`g_moduleRefCount` is incremented by the `QuickerSFVExplorerCommand` and
`QuickerSFVClassFactory` constructors and by `LockServer(TRUE)`, and
decremented by the destructors and by `LockServer(FALSE)`;
`DllCanUnloadNow` returns `S_OK` exactly when the count is zero.  A run of
the process is a trace of these six events. -/

inductive ComEvent where
  | createCommand
  | destroyCommand
  | createFactory
  | destroyFactory
  | lockServer (fLock : Bool)
deriving DecidableEq

/-- Effect of one event on `g_moduleRefCount` (`InterlockedIncrement` /
`InterlockedDecrement` in the source). -/
def eventDelta : ComEvent → Int
  | .createCommand => 1
  | .destroyCommand => -1
  | .createFactory => 1
  | .destroyFactory => -1
  | .lockServer true => 1
  | .lockServer false => -1

/-- The counter `g_moduleRefCount` after the trace `tr` (it starts at 0). -/
def moduleRefCount (tr : List ComEvent) : Int :=
  (tr.map eventDelta).sum

/-- The export `DllCanUnloadNow`: `S_OK` iff the module reference count is zero,
`S_FALSE` otherwise. -/
def dllCanUnloadNow (tr : List ComEvent) : Hresult :=
  if moduleRefCount tr = 0 then .sOk else .sFalse

/-- Command objects constructed and not yet destructed. -/
def liveCommands (tr : List ComEvent) : Int :=
  (tr.count .createCommand : Int) - (tr.count .destroyCommand : Int)

/-- Factory objects constructed and not yet destructed. -/
def liveFactories (tr : List ComEvent) : Int :=
  (tr.count .createFactory : Int) - (tr.count .destroyFactory : Int)

/-- Outstanding server locks: `LockServer(TRUE)` minus
`LockServer(FALSE)`. -/
def netLocks (tr : List ComEvent) : Int :=
  (tr.count (.lockServer true) : Int) - (tr.count (.lockServer false) : Int)

/-- A balanced trace: in every prefix, each destructor call matches an
earlier constructor call of the same class and each `LockServer(FALSE)`
matches an earlier `LockServer(TRUE)`. -/
def Balanced (tr : List ComEvent) : Prop :=
  ∀ n, n ≤ tr.length →
    (tr.take n).count .destroyCommand ≤ (tr.take n).count .createCommand ∧
    (tr.take n).count .destroyFactory ≤ (tr.take n).count .createFactory ∧
    (tr.take n).count (.lockServer false) ≤ (tr.take n).count (.lockServer true)

instance : DecidablePred Balanced := fun tr =>
  Nat.decidableBallLE tr.length _

/-! ## Helper lemmas -/

lemma crc32Update_append (r : Nat) (a b : List Nat) :
    crc32Update r (a ++ b) = crc32Update (crc32Update r a) b := by
  simp [crc32Update, List.foldl_append]

lemma crc32_empty : crc32 [] = 0 := by decide

set_option maxRecDepth 10000 in
lemma crc32_123456789 : crc32 bytes123456789 = 0xCBF43926 := by decide

set_option maxRecDepth 10000 in
lemma crc32_preimage_5F3759DF : crc32 [23, 56, 180, 150] = 0x5F3759DF := by
  decide

/-! ## Claims -/

/-- C3: feeding a CRC32 digest provider the chunk `a` then the chunk `b`
and finalizing produces the same final digest as feeding it the single
concatenated chunk `a ++ b`; a zero-length update is a no-op; thus the
checksum is independent of the chunk boundaries. -/
theorem chunk_boundary_independence :
    ∀ (h : Crc32Hasher) (a b : List Nat),
      ((h.update a).update b).finalize = (h.update (a ++ b)).finalize
      ∧ h.update [] = h
      ∧ ((Crc32Hasher.new.update a).update b).finalize = crc32 (a ++ b) := by
  intro h a b
  refine ⟨?_, rfl, ?_⟩
  · simp [Crc32Hasher.update, Crc32Hasher.finalize, crc32Update_append]
  · simp [Crc32Hasher.new, Crc32Hasher.update, Crc32Hasher.finalize, crc32,
      crc32Update_append]

/-- C9: the value 0 doubles as the error sentinel of `quicksfv_crc32_file`
and as a legitimate digest: the CRC32 of the empty byte sequence is 0, a
missing or unreadable file also yields 0, and the result display emits the
error text exactly on value 0 — so an existing, readable file whose CRC32
is 0 (e.g. an empty file) is reported as
"ERROR (file not found or read error)" instead of its digest `00000000`. -/
theorem zero_sentinel_collision :
    crc32 [] = 0
    ∧ (∀ (fs : String → FileState) p, fs p = FileState.absent →
        crc32File fs p = 0)
    ∧ (∀ (fs : String → FileState) p, fs p = FileState.unreadable →
        crc32File fs p = 0)
    ∧ (∀ (fs : String → FileState) p bytes,
        fs p = FileState.content bytes → crc32 bytes = 0 →
        resultText (crc32File fs p)
          = "ERROR (file not found or read error)") := by
  refine ⟨crc32_empty, ?_, ?_, ?_⟩
  · intro fs p hp; simp [crc32File, hp]
  · intro fs p hp; simp [crc32File, hp]
  · intro fs p bytes hp hc
    simp [crc32File, hp, hc, resultText]

/-- Witness for C9: the empty file at path `empty.bin` exists with empty
content, its CRC32 is 0, and the shim displays the error text for it. -/
theorem zero_sentinel_collision_witness :
    (fun _ : String => FileState.content []) "empty.bin"
        = FileState.content []
    ∧ crc32 [] = 0
    ∧ resultText (crc32File (fun _ => FileState.content []) "empty.bin")
        = "ERROR (file not found or read error)" :=
  ⟨rfl, zero_sentinel_collision.1,
    zero_sentinel_collision.2.2.2 _ "empty.bin" [] rfl crc32_empty⟩

/-- The concrete manifest entry of the spec's scenario:
`file.bin 5F3759DF` (CRC32, 8 hex chars). -/
def fileBinEntry : ManifestEntry := ⟨"file.bin", 0x5F3759DF, "crc32"⟩

/-- C5: verifying the entry `file.bin 5F3759DF` against a `file.bin` whose
actual CRC32 is `5F3759DF` yields `matched`; against one whose computed
CRC32 differs it yields `mismatched` reporting both the expected and the
computed digest; and the CRC32 computation agrees with the standard
reference on `"123456789"` (`0xCBF43926`). -/
theorem scenario_matched_mismatched :
    crc32 bytes123456789 = 0xCBF43926
    ∧ (∀ (fs : String → FileState) bytes,
        fs "file.bin" = FileState.content bytes →
        crc32 bytes = 0x5F3759DF →
        verifyOne ["crc32"] fs fileBinEntry = VOutcome.matched)
    ∧ (∀ (fs : String → FileState) bytes,
        fs "file.bin" = FileState.content bytes →
        crc32 bytes ≠ 0x5F3759DF →
        verifyOne ["crc32"] fs fileBinEntry
          = VOutcome.mismatched 0x5F3759DF (crc32 bytes)) := by
  refine ⟨crc32_123456789, ?_, ?_⟩
  · intro fs bytes hp hc
    simp [verifyOne, registryCreate, fileBinEntry, hp, hc]
  · intro fs bytes hp hc
    simp [verifyOne, registryCreate, fileBinEntry, hp, hc]

set_option maxRecDepth 10000 in
/-- Witness for C5: the four bytes `[23, 56, 180, 150]` have CRC32
`5F3759DF` and verify as `matched`; the bytes of `"123456789"` have a
different CRC32 and verify as `mismatched` with both digests reported. -/
theorem scenario_matched_mismatched_witness :
    crc32 [23, 56, 180, 150] = 0x5F3759DF
    ∧ verifyOne ["crc32"] (fun _ => FileState.content [23, 56, 180, 150])
        fileBinEntry = VOutcome.matched
    ∧ crc32 bytes123456789 ≠ 0x5F3759DF
    ∧ verifyOne ["crc32"] (fun _ => FileState.content bytes123456789)
        fileBinEntry
        = VOutcome.mismatched 0x5F3759DF (crc32 bytes123456789) :=
  ⟨crc32_preimage_5F3759DF,
    scenario_matched_mismatched.2.1 _ _ rfl crc32_preimage_5F3759DF,
    by decide,
    scenario_matched_mismatched.2.2 _ _ rfl (by decide)⟩

lemma length_hexDigitsBE : ∀ (n v : Nat), (hexDigitsBE n v).length = n := by
  intro n
  induction n with
  | zero => intro v; rfl
  | succ n ih => intro v; simp [hexDigitsBE, ih]

lemma length_formatHex8 (v : Nat) : (formatHex8 v).length = 8 := by
  simp [formatHex8, length_hexDigitsBE]

lemma resultText_eq_error_iff (c : Nat) :
    resultText c = "ERROR (file not found or read error)" ↔ c = 0 := by
  constructor
  · intro h
    by_contra hc
    rw [resultText, if_pos hc] at h
    have hlen := congrArg String.length h
    simp [String.length, length_formatHex8] at hlen
  · intro h
    simp [resultText, h]

/-- C1 counterexample: a selection of one item whose shell-item retrieval
(`GetItemAt`) fails produces an empty result list — the entry is silently
dropped instead of yielding an explicit outcome. -/
theorem invoke_drops_failed_retrieval :
    (invokeLines (fun _ => FileState.absent) [none]).length = 0
    ∧ ([(none : Option ShellItem)]).length = 1 := ⟨rfl, rfl⟩

/-- C1 as amended: the `Invoke` loop yields exactly one result line, with
an explicit outcome, for every selected item whose shell-item retrieval
and path resolution both succeed (in particular a file that fails to open
or read still gets the explicit error text); items whose retrieval or
path resolution fails are skipped without a line. -/
theorem one_line_per_resolved_item :
    ∀ (fs : String → FileState) (items : List (Option ShellItem)),
      invokeLines fs items
        = (resolvedPaths items).map
            (fun p => p ++ ": " ++ resultText (crc32File fs p)) := by
  intro fs items
  induction items with
  | nil => rfl
  | cons slot rest ih =>
    cases slot with
    | none =>
      simpa [invokeLines, resolvedPaths, List.filterMap_cons] using ih
    | some item =>
      cases hp : item.path with
      | none =>
        simpa [invokeLines, resolvedPaths, List.filterMap_cons, hp] using ih
      | some p =>
        simpa [invokeLines, resolvedPaths, List.filterMap_cons, hp] using ih

/-- C2 counterexample: the outcome emitted for a path that does not exist
is the very same text as the outcome emitted for a path that exists but
cannot be read — the code does not distinguish `Missing` from
`ReadError`. -/
theorem absent_and_unreadable_same_outcome :
    resultText (crc32File (fun _ => FileState.absent) "file.bin")
      = resultText (crc32File (fun _ => FileState.unreadable) "file.bin") :=
  rfl

/-- C2 as amended: every failure to open or read the referenced file —
missing path and any other I/O failure alike — produces the single
combined outcome "ERROR (file not found or read error)", and the computed
digest is absent from the result exactly when the reported checksum value
is 0. -/
theorem combined_error_outcome :
    (∀ (fs : String → FileState) p,
      fs p = FileState.absent ∨ fs p = FileState.unreadable →
        crc32File fs p = 0 ∧
        resultText (crc32File fs p)
          = "ERROR (file not found or read error)")
    ∧ (∀ c : Nat,
        resultText c = "ERROR (file not found or read error)" ↔ c = 0) := by
  refine ⟨?_, resultText_eq_error_iff⟩
  intro fs p hp
  rcases hp with hp | hp <;> simp [crc32File, hp, resultText]

/-- Witness for C2 as amended: at a concrete filesystem where `gone.bin`
is absent, the combined error text is emitted with checksum 0, and the
error text appears exactly for checksum value 0. -/
theorem combined_error_outcome_witness :
    ((fun _ : String => FileState.absent) "gone.bin" = FileState.absent
      ∨ (fun _ : String => FileState.absent) "gone.bin"
          = FileState.unreadable)
    ∧ crc32File (fun _ => FileState.absent) "gone.bin" = 0
    ∧ resultText (crc32File (fun _ => FileState.absent) "gone.bin")
        = "ERROR (file not found or read error)"
    ∧ (resultText 7 = "ERROR (file not found or read error)" ↔ 7 = 0) :=
  ⟨Or.inl rfl,
    (combined_error_outcome.1 _ "gone.bin" (Or.inl rfl)).1,
    (combined_error_outcome.1 _ "gone.bin" (Or.inl rfl)).2,
    combined_error_outcome.2 7⟩

lemma hexVal_hexDigitU {d : Nat} (hd : d < 16) :
    hexVal (hexDigitU d) = some d := by
  have h : ∀ k : Fin 16, hexVal (hexDigitU k.val) = some k.val := by decide
  exact h ⟨d, hd⟩

lemma hexVal_toLower_hexDigitU {d : Nat} (hd : d < 16) :
    hexVal ((hexDigitU d).toLower) = some d := by
  have h : ∀ k : Fin 16, hexVal ((hexDigitU k.val).toLower) = some k.val := by
    decide
  exact h ⟨d, hd⟩

lemma hexDigitU_upper {d : Nat} (hd : d < 16) :
    (48 ≤ (hexDigitU d).toNat ∧ (hexDigitU d).toNat ≤ 57)
    ∨ (65 ≤ (hexDigitU d).toNat ∧ (hexDigitU d).toNat ≤ 70) := by
  have h : ∀ k : Fin 16,
      (48 ≤ (hexDigitU k.val).toNat ∧ (hexDigitU k.val).toNat ≤ 57)
      ∨ (65 ≤ (hexDigitU k.val).toNat ∧ (hexDigitU k.val).toNat ≤ 70) := by
    decide
  exact h ⟨d, hd⟩

lemma mem_hexDigitsBE_lt : ∀ (n v d : Nat), d ∈ hexDigitsBE n v → d < 16 := by
  intro n
  induction n with
  | zero => intro v d hd; simp [hexDigitsBE] at hd
  | succ n ih =>
    intro v d hd
    simp only [hexDigitsBE, List.mem_append, List.mem_singleton] at hd
    rcases hd with hd | hd
    · exact ih _ _ hd
    · subst hd; exact Nat.mod_lt _ (by norm_num)


lemma foldl_hexDigitsBE : ∀ (n v a : Nat),
    (hexDigitsBE n v).foldl (fun x d => 16 * x + d) a
      = a * 16 ^ n + v % 16 ^ n := by
  intro n
  induction n with
  | zero => intro v a; simp [hexDigitsBE, Nat.mod_one]
  | succ n ih =>
    intro v a
    have hm : v % 16 ^ (n + 1) = 16 * (v / 16 % 16 ^ n) + v % 16 := by
      rw [pow_succ, mul_comm, Nat.mod_mul]
      omega
    calc (hexDigitsBE (n + 1) v).foldl (fun x d => 16 * x + d) a
        = 16 * (a * 16 ^ n + v / 16 % 16 ^ n) + v % 16 := by
          simp [hexDigitsBE, List.foldl_append, ih]
      _ = a * 16 ^ (n + 1) + (16 * (v / 16 % 16 ^ n) + v % 16) := by ring
      _ = a * 16 ^ (n + 1) + v % 16 ^ (n + 1) := by rw [← hm]

lemma parseHexAux_map (e : Nat → Char)
    (he : ∀ d, d < 16 → hexVal (e d) = some d) :
    ∀ (ds : List Nat) (a : Nat), (∀ d ∈ ds, d < 16) →
      (ds.map e).foldl
          (fun acc c => acc.bind fun x => (hexVal c).map fun d => 16 * x + d)
          (some a)
        = some (ds.foldl (fun x d => 16 * x + d) a) := by
  intro e_ds
  induction e_ds with
  | nil => intro a _; rfl
  | cons d ds ih =>
    intro a hds
    have hd : d < 16 := hds d (List.mem_cons_self d ds)
    simp only [List.map_cons, List.foldl_cons, Option.bind_eq_bind,
      Option.some_bind, he d hd, Option.map_some]
    exact ih _ (fun x hx => hds x (List.mem_cons_of_mem d hx))

lemma lt_sixteen_pow {v : Nat} (hv : v < 2 ^ 32) : v < 16 ^ 8 :=
  lt_of_lt_of_eq hv (by norm_num)

lemma parseHex_formatHex8 {v : Nat} (hv : v < 2 ^ 32) :
    parseHex (formatHex8 v) = some v := by
  have h := parseHexAux_map hexDigitU (fun d hd => hexVal_hexDigitU hd)
    (hexDigitsBE 8 v) 0 (fun d hd => mem_hexDigitsBE_lt 8 v d hd)
  rw [parseHex, formatHex8, h, foldl_hexDigitsBE, Nat.zero_mul,
    Nat.zero_add, Nat.mod_eq_of_lt (lt_sixteen_pow hv)]

lemma parseHex_formatHex8_toLower {v : Nat} (hv : v < 2 ^ 32) :
    parseHex ((formatHex8 v).map Char.toLower) = some v := by
  have hmap : (formatHex8 v).map Char.toLower
      = (hexDigitsBE 8 v).map (fun d => (hexDigitU d).toLower) := by
    rw [formatHex8, List.map_map]
    rfl
  have h := parseHexAux_map (fun d => (hexDigitU d).toLower)
    (fun d hd => hexVal_toLower_hexDigitU hd)
    (hexDigitsBE 8 v) 0 (fun d hd => mem_hexDigitsBE_lt 8 v d hd)
  rw [parseHex, hmap, h, foldl_hexDigitsBE, Nat.zero_mul,
    Nat.zero_add, Nat.mod_eq_of_lt (lt_sixteen_pow hv)]

/-- C4: parsing back the textual hexadecimal formatting of a digest
recovers the original digest: for every 32-bit value `v`, the
8-hex-character form produced by the result formatter decodes to exactly
`v` again. -/
theorem parse_format_roundtrip :
    ∀ v : Nat, v < 2 ^ 32 →
      (formatHex8 v).length = 8 ∧ parseHex (formatHex8 v) = some v := by
  intro v hv
  exact ⟨length_formatHex8 v, parseHex_formatHex8 hv⟩

/-- Witness for C4: the digest `5F3759DF` formats to eight characters and
parses back to itself. -/
theorem parse_format_roundtrip_witness :
    (0x5F3759DF : Nat) < 2 ^ 32
    ∧ (formatHex8 0x5F3759DF).length = 8
    ∧ parseHex (formatHex8 0x5F3759DF) = some 0x5F3759DF :=
  ⟨by norm_num, (parse_format_roundtrip 0x5F3759DF (by norm_num)).1,
    (parse_format_roundtrip 0x5F3759DF (by norm_num)).2⟩

/-- C6 counterexample: the textual form the program produces is not
lowercase — formatting the digest `CBF43926` yields the uppercase
character `C`, which is neither a decimal digit nor a lowercase letter. -/
theorem format_not_lowercase :
    'C' ∈ formatHex8 0xCBF43926 ∧ ¬('C'.isDigit ∨ 'C'.isLower) := by
  constructor
  · decide
  · decide

/-- C6 as amended: the canonical textual form the program produces is
UPPERCASE hexadecimal (every produced character is a decimal digit or
`A`–`F`), while the (spec-modelled) parser accepts hexadecimal digests
case-insensitively, so both the produced uppercase form and its lowercase
variant parse back to the original digest. -/
theorem format_uppercase_parse_case_insensitive :
    ∀ v : Nat, v < 2 ^ 32 →
      (∀ c ∈ formatHex8 v,
        (48 ≤ c.toNat ∧ c.toNat ≤ 57) ∨ (65 ≤ c.toNat ∧ c.toNat ≤ 70))
      ∧ parseHex (formatHex8 v) = some v
      ∧ parseHex ((formatHex8 v).map Char.toLower) = some v := by
  intro v hv
  refine ⟨?_, parseHex_formatHex8 hv, parseHex_formatHex8_toLower hv⟩
  intro c hc
  simp only [formatHex8, List.mem_map] at hc
  obtain ⟨d, hd, rfl⟩ := hc
  exact hexDigitU_upper (mem_hexDigitsBE_lt 8 v d hd)

/-- Witness for C6 as amended: the digest `CBF43926` formats to characters
that are all digits or uppercase `A`–`F`, and both the uppercase rendering
and its lowercased copy parse back to the digest. -/
theorem format_uppercase_witness :
    (0xCBF43926 : Nat) < 2 ^ 32
    ∧ (∀ c ∈ formatHex8 0xCBF43926,
        (48 ≤ c.toNat ∧ c.toNat ≤ 57) ∨ (65 ≤ c.toNat ∧ c.toNat ≤ 70))
    ∧ parseHex (formatHex8 0xCBF43926) = some 0xCBF43926
    ∧ parseHex ((formatHex8 0xCBF43926).map Char.toLower)
        = some 0xCBF43926 :=
  ⟨by norm_num,
    (format_uppercase_parse_case_insensitive 0xCBF43926 (by norm_num)).1,
    (format_uppercase_parse_case_insensitive 0xCBF43926 (by norm_num)).2.1,
    (format_uppercase_parse_case_insensitive 0xCBF43926 (by norm_num)).2.2⟩

/-- C7: looking up an identifier with no registered factory always yields
the explicit failure value — `CLASS_E_CLASSNOTAVAILABLE` from
`DllGetClassObject` for an unknown class id, `unsupportedAlgorithm` from
the provider registry's `create` for an unknown algorithm id — and both
lookups are total functions, so an unknown id can never crash the
caller. -/
theorem unknown_id_explicit_failure :
    (∀ rclsid riid : Nat, rclsid ≠ CLSID_QuickerSFVExplorerCommand →
      dllGetClassObject rclsid riid = Hresult.classNotAvailable)
    ∧ (∀ (reg : List String) (id : String), id ∉ reg →
      registryCreate reg id = CreateResult.unsupportedAlgorithm) := by
  constructor
  · intro rclsid riid hne
    simp [dllGetClassObject, hne]
  · intro reg id hid
    simp [registryCreate, hid]

/-- Witness for C7: the null class id is unknown and yields
`CLASS_E_CLASSNOTAVAILABLE`; the algorithm id `md5` is absent from the
registry containing only `crc32` and yields `unsupportedAlgorithm`. -/
theorem unknown_id_explicit_failure_witness :
    (0 : Nat) ≠ CLSID_QuickerSFVExplorerCommand
    ∧ dllGetClassObject 0 IID_IUnknown = Hresult.classNotAvailable
    ∧ "md5" ∉ ["crc32"]
    ∧ registryCreate ["crc32"] "md5" = CreateResult.unsupportedAlgorithm :=
  ⟨by decide, unknown_id_explicit_failure.1 0 IID_IUnknown (by decide),
    by decide, unknown_id_explicit_failure.2 ["crc32"] "md5" (by decide)⟩

/-- Placeholder entry used only as the default of `List.getD`. -/
def defaultEntry : ManifestEntry := ⟨"", 0, ""⟩

lemma lookup_runSchedule (reg : List String) (fs : String → FileState)
    (entries : List ManifestEntry) :
    ∀ (order : List Nat) (i : Nat) (hi : i < entries.length), i ∈ order →
      (runSchedule reg fs entries order).lookup i
        = some (verifyOne reg fs (entries.get ⟨i, hi⟩)) := by
  intro order
  induction order with
  | nil => intro i hi hmem; simp at hmem
  | cons j rest ih =>
    intro i hi hmem
    by_cases hij : i = j
    · subst hij
      have hj : entries[i]? = some (entries.get ⟨i, hi⟩) := by
        simp [List.getElem?_eq_getElem hi]
      simp [runSchedule, List.filterMap_cons, hj, List.lookup]
    · rcases List.mem_cons.mp hmem with h | h
      · exact absurd h hij
      · cases hj : entries[j]? with
        | none =>
          have hrw : runSchedule reg fs entries (j :: rest)
              = runSchedule reg fs entries rest := by
            simp [runSchedule, List.filterMap_cons, hj]
          rw [hrw]
          exact ih i hi h
        | some e =>
          have hrw : runSchedule reg fs entries (j :: rest)
              = (j, verifyOne reg fs e) :: runSchedule reg fs entries rest := by
            simp [runSchedule, List.filterMap_cons, hj]
          rw [hrw]
          have hbeq : (i == j) = false := by
            simpa using hij
          simp [List.lookup, hbeq]
          exact ih i hi h

lemma filterMap_eq_map_of_some {α β : Type} (l : List α) (g : α → Option β)
    (f : α → β) (h : ∀ a ∈ l, g a = some (f a)) : l.filterMap g = l.map f := by
  induction l with
  | nil => rfl
  | cons a l ih =>
    simp [List.filterMap_cons, h a (List.mem_cons_self a l),
      ih (fun x hx => h x (List.mem_cons_of_mem a hx))]

/-- C8: for a fixed manifest and file set, the re-sorted report is
independent of the order in which the workers complete the entries — any
completion order that covers every manifest index yields exactly the
1-worker sequential report — and each entry's outcome depends only on its
own file's bytes, never on other entries or on interleaving. -/
theorem schedule_independent_report :
    (∀ (reg : List String) (fs : String → FileState)
        (entries : List ManifestEntry) (order : List Nat),
      (∀ i, i < entries.length → i ∈ order) →
      resortReport entries.length (runSchedule reg fs entries order)
        = runSequential reg fs entries)
    ∧ (∀ (reg : List String) (fs1 fs2 : String → FileState)
        (e : ManifestEntry), fs1 e.path = fs2 e.path →
      verifyOne reg fs1 e = verifyOne reg fs2 e) := by
  constructor
  · intro reg fs entries order hcover
    have hstep : resortReport entries.length (runSchedule reg fs entries order)
        = (List.range entries.length).map
            (fun i => verifyOne reg fs (entries.getD i defaultEntry)) := by
      apply filterMap_eq_map_of_some
      intro i hi
      have hilt : i < entries.length := List.mem_range.mp hi
      rw [lookup_runSchedule reg fs entries order i hilt (hcover i hilt)]
      rw [List.getD_eq_getElem entries defaultEntry hilt]
      rfl
    rw [resortReport] at hstep
    rw [resortReport, hstep]
    apply List.ext_getElem
    · simp [runSequential]
    · intro i h1 h2
      have hilt : i < entries.length := by
        simpa [runSequential] using h2
      simp [List.getElem_map, List.getElem_range, runSequential,
        List.getElem?_eq_getElem hilt]
  · intro reg fs1 fs2 e h
    unfold verifyOne
    rw [h]

/-- Witness for C8: a two-entry manifest processed in the completion order
`[1, 0]` re-sorts to exactly the sequential report, and an entry's outcome
is unchanged when the filesystem agrees on its own path. -/
theorem schedule_independent_report_witness :
    (∀ i, i < ([⟨"a", 1, "crc32"⟩, ⟨"b", 2, "crc32"⟩] :
        List ManifestEntry).length → i ∈ [1, 0])
    ∧ resortReport 2 (runSchedule ["crc32"] (fun _ => FileState.absent)
        [⟨"a", 1, "crc32"⟩, ⟨"b", 2, "crc32"⟩] [1, 0])
      = runSequential ["crc32"] (fun _ => FileState.absent)
          [⟨"a", 1, "crc32"⟩, ⟨"b", 2, "crc32"⟩]
    ∧ verifyOne ["crc32"] (fun _ => FileState.absent)
          (⟨"a", 1, "crc32"⟩ : ManifestEntry)
        = verifyOne ["crc32"] (fun _ => FileState.absent)
            (⟨"a", 1, "crc32"⟩ : ManifestEntry) :=
  ⟨by decide,
    schedule_independent_report.1 ["crc32"] (fun _ => FileState.absent)
      [⟨"a", 1, "crc32"⟩, ⟨"b", 2, "crc32"⟩] [1, 0] (by decide),
    schedule_independent_report.2 ["crc32"] (fun _ => FileState.absent)
      (fun _ => FileState.absent) ⟨"a", 1, "crc32"⟩ rfl⟩


lemma refCount_decomp (tr : List ComEvent) :
    moduleRefCount tr = liveCommands tr + liveFactories tr + netLocks tr := by
  induction tr with
  | nil => rfl
  | cons e tr ih =>
    cases e with
    | createCommand =>
      simp only [moduleRefCount, liveCommands, liveFactories, netLocks,
        List.map_cons, List.sum_cons, List.count_cons, eventDelta] at ih ⊢
      simp
      omega
    | destroyCommand =>
      simp only [moduleRefCount, liveCommands, liveFactories, netLocks,
        List.map_cons, List.sum_cons, List.count_cons, eventDelta] at ih ⊢
      simp
      omega
    | createFactory =>
      simp only [moduleRefCount, liveCommands, liveFactories, netLocks,
        List.map_cons, List.sum_cons, List.count_cons, eventDelta] at ih ⊢
      simp
      omega
    | destroyFactory =>
      simp only [moduleRefCount, liveCommands, liveFactories, netLocks,
        List.map_cons, List.sum_cons, List.count_cons, eventDelta] at ih ⊢
      simp
      omega
    | lockServer b =>
      cases b with
      | false =>
        simp only [moduleRefCount, liveCommands, liveFactories, netLocks,
          List.map_cons, List.sum_cons, List.count_cons, eventDelta] at ih ⊢
        simp
        omega
      | true =>
        simp only [moduleRefCount, liveCommands, liveFactories, netLocks,
          List.map_cons, List.sum_cons, List.count_cons, eventDelta] at ih ⊢
        simp
        omega

lemma balanced_take_nonneg {tr : List ComEvent} (hb : Balanced tr)
    {n : Nat} (hn : n ≤ tr.length) :
    0 ≤ liveCommands (tr.take n) ∧ 0 ≤ liveFactories (tr.take n)
    ∧ 0 ≤ netLocks (tr.take n) := by
  obtain ⟨h1, h2, h3⟩ := hb n hn
  refine ⟨?_, ?_, ?_⟩ <;>
    simp only [liveCommands, liveFactories, netLocks, sub_nonneg] <;>
    exact_mod_cast (by assumption)

/-- C10: along any balanced trace of constructions, destructions and
server locks/unlocks, the module reference count (a) never goes negative
at any prefix, and (b) `DllCanUnloadNow` answers `S_OK` exactly when no
command object, no factory object and no outstanding server lock is alive
— the DLL never reports itself unloadable while anything lives. -/
theorem module_refcount_invariant :
    ∀ tr : List ComEvent, Balanced tr →
      (∀ n : Nat, 0 ≤ moduleRefCount (tr.take n))
      ∧ (dllCanUnloadNow tr = Hresult.sOk ↔
          liveCommands tr = 0 ∧ liveFactories tr = 0 ∧ netLocks tr = 0) := by
  intro tr hb
  have hall := balanced_take_nonneg hb (le_refl tr.length)
  rw [List.take_length] at hall
  obtain ⟨h1, h2, h3⟩ := hall
  constructor
  · intro n
    by_cases hn : n ≤ tr.length
    · obtain ⟨g1, g2, g3⟩ := balanced_take_nonneg hb hn
      rw [refCount_decomp]
      omega
    · rw [List.take_of_length_le (by omega), refCount_decomp]
      omega
  · have hd := refCount_decomp tr
    constructor
    · intro hok
      by_cases hz : moduleRefCount tr = 0
      · omega
      · simp [dllCanUnloadNow, hz] at hok
    · intro ⟨hz1, hz2, hz3⟩
      have hz : moduleRefCount tr = 0 := by omega
      simp [dllCanUnloadNow, hz]

/-- A concrete balanced lifetime: a command object is created, the server
is locked and unlocked, the command is destroyed. -/
def demoTrace : List ComEvent :=
  [ComEvent.createCommand, ComEvent.lockServer true,
   ComEvent.lockServer false, ComEvent.destroyCommand]

/-- Witness for C10: the demo trace is balanced, its reference count is
nonnegative at an intermediate prefix, and at its end `DllCanUnloadNow`
answers `S_OK` exactly because nothing is left alive. -/
theorem module_refcount_invariant_witness :
    Balanced demoTrace
    ∧ 0 ≤ moduleRefCount (demoTrace.take 2)
    ∧ (dllCanUnloadNow demoTrace = Hresult.sOk ↔
        liveCommands demoTrace = 0 ∧ liveFactories demoTrace = 0
        ∧ netLocks demoTrace = 0) :=
  ⟨by decide, (module_refcount_invariant demoTrace (by decide)).1 2,
    (module_refcount_invariant demoTrace (by decide)).2⟩
